import Mathlib

set_option maxRecDepth 8000

/-
Verification of the munotes library: a shallow embedding of its note/chord
data model and waveform-rendering pipeline, with theorems checking the
documented properties against the code.

Conventions of the embedding:
- Python ints are modelled as ℤ, Python floats as ℝ.
- Python `%` and `//` (floor modulus / floor division) agree with Lean's
  `Int` `%` (emod) and `/` (ediv) whenever the divisor is positive, which is
  the only case the code uses (divisor 12).
- Python strings are modelled as Lean `String`; slicing and membership are
  expressed over `String.data` (the list of characters, matching Python's
  code-point indexing).
- Fallible code (assert / raise) is modelled with `Except String`.
-/

/-- MIDI note number of C0 (munotes/notes.py). -/
def NUM_C0 : ℤ := 12

/-- MIDI note number of A4 (munotes/notes.py). -/
def NUM_A4 : ℤ := 69

/-- The twelve sharp-spelled key names (munotes/notes.py), C through B in
semitone order; the five sharps are written as letter plus sharp sign. -/
def KEY_NAMES : List String :=
  [("C"), ("C") ++ ("#"), ("D"), ("D") ++ ("#"), ("E"), ("F"),
   ("F") ++ ("#"), ("G"), ("G") ++ ("#"), ("A"), ("A") ++ ("#"), ("B")]

/-- Character-level accidental normalization. `string_formatting` in
munotes/name_strings.py performs whole-string replaces of the single
characters `+` and the unicode sharp by `#`, and `-` and the unicode flat
by `b`; since none of the four sources can be produced by another replace,
the sequence of replaces equals this single character map. -/
def charFormat (c : Char) : Char :=
  if c = '+' ∨ c = '♯' then '#'
  else if c = '-' ∨ c = '♭' then 'b'
  else c

/-- `string_formatting` from munotes/name_strings.py: uppercase the first
character (Python raises IndexError on an empty string), then apply the
accidental replacements. -/
def stringFormatting (s : String) : Except String String :=
  match s.data with
  | [] => .error ("IndexError: string index out of range")
  | c :: rest => .ok (String.mk ((c.toUpper :: rest).map charFormat))

/-- True for the characters accepted by the `[A-G]` regex class. -/
def isNoteLetter (c : Char) : Bool :=
  'A' ≤ c && c ≤ 'G'

/-- Python `int(s)` on a digit string, `none` when the string is not a
nonempty digit sequence (Python raises ValueError there). -/
def parseDigits (cs : List Char) : Option ℕ :=
  if cs = [] then none
  else if cs.all Char.isDigit then
    some (cs.foldl (fun a c => 10 * a + (c.toNat - 48)) 0)
  else none

/-- `note_name_formatting` from munotes/name_strings.py, embedded line by
line.  `re.match` of the pattern `[A-G][#b]?\d*` succeeds exactly when the
formatted string starts with a letter in A..G (the two trailing groups may
match empty).  Note the source dataflow: the string is truncated to
`note_name[:border]` FIRST, and `octave_str` is then taken from the
truncated string, so `octave_str` is always empty and the trailing digits
of the input are dropped.  Python `assert octave` fails when the octave
argument is 0 (falsy); otherwise the argument is used. -/
def noteNameFormatting (noteNameString : String) (octave : ℤ) :
    Except String (String × ℤ) := do
  let formatted ← stringFormatting noteNameString
  match formatted.data with
  | [] => .error ("Input string is invalid.")
  | c :: _ =>
    if !(isNoteLetter c) then
      .error ("Input string is invalid.")
    else
      let border : ℕ :=
        if formatted.data.contains '#' || formatted.data.contains 'b' then 2 else 1
      let noteName := String.mk (formatted.data.take border)
      let octaveStr := String.mk (noteName.data.drop border)
      if octaveStr.data = [] then
        if octave = 0 then .error ("Octave is not specified.")
        else .ok (noteName, octave)
      else
        match parseDigits octaveStr.data with
        | some o => .ok (noteName, (o : ℤ))
        | none => .error ("invalid literal for int with base 10")

/-- `Note._return_name_idx` from munotes/notes.py:
`KEY_NAMES.index(name[0])`, plus one per sharp, minus one per flat, mod 12.
`List.indexOf` here plays the role of `list.index` (the name's first
character is always present in `KEY_NAMES` for names produced by
`note_name_formatting`). -/
def returnNameIdx (name : String) : ℤ :=
  let i : ℕ := KEY_NAMES.indexOf (String.mk (name.data.take 1))
  ((i : ℤ) + (if name.data.contains '#' then 1 else 0)
    - (if name.data.contains 'b' then 1 else 0)) % 12

/-- State of a munotes/notes.py `Note` object: the attributes set by
`Note.__init__` that the verified operations read or write.  The default
duration/unit/bpm attributes are plain copies of constructor arguments and
are carried by the rendering functions below instead. -/
structure PyNote where
  name : String
  octave : ℤ
  idx : ℤ
  num : ℤ
  A4 : ℝ
  freq : ℝ

/-- Frequency formula used throughout notes.py:
`A4 * 2 ** ((num - NUM_A4) / 12)`. -/
noncomputable def pitchFreq (A4 : ℝ) (num : ℤ) : ℝ :=
  A4 * (2 : ℝ) ^ (((num : ℝ) - (NUM_A4 : ℝ)) / 12)

/-- `Note.__init__` with a string query (munotes/notes.py lines 87-90):
format the name, derive idx via `_return_name_idx`, and set
`num = NUM_C0 + 12*octave + idx`. -/
noncomputable def noteFromName (query : String) (octave : ℤ) (A4 : ℝ) :
    Except String PyNote := do
  let (name, oct) ← noteNameFormatting query octave
  let idx := returnNameIdx name
  let num := NUM_C0 + 12 * oct + idx
  .ok { name := name, octave := oct, idx := idx, num := num,
        A4 := A4, freq := pitchFreq A4 num }

/-- `Note.__init__` with an integer query (munotes/notes.py lines 91-96):
assert the MIDI range, then derive the name as `KEY_NAMES[(num-NUM_C0)%12]`,
the idx by `_return_name_idx()` applied to that name, and the octave as
`(num-NUM_C0)//12`. -/
noncomputable def noteFromNum (query : ℤ) (A4 : ℝ) : Except String PyNote :=
  if 0 ≤ query ∧ query ≤ 127 then
    .ok { name := KEY_NAMES.getD ((query - NUM_C0) % 12).toNat (""),
          octave := (query - NUM_C0) / 12,
          idx := returnNameIdx (KEY_NAMES.getD ((query - NUM_C0) % 12).toNat ("")),
          num := query,
          A4 := A4, freq := pitchFreq A4 query }
  else .error ("MIDI note number must be in 0 ~ 127")

/-- `Note.transpose` (munotes/notes.py lines 376-394) applied to one note of
the group: shift idx mod 12, rename from `KEY_NAMES`, add the semitones to
`num` unconditionally, recompute octave and frequency.  There is no range
check on the resulting `num`. -/
noncomputable def transpose (nSemitones : ℤ) (note : PyNote) : PyNote :=
  let idx := (note.idx + nSemitones) % 12
  let num := note.num + nSemitones
  { name := KEY_NAMES.getD idx.toNat "", octave := (num - NUM_C0) / 12,
    idx := idx, num := num, A4 := note.A4, freq := pitchFreq note.A4 num }

/-- `Note.tuning` (munotes/notes.py lines 396-425) on a single ungrouped
note (`_notes == [self]`): with `stand_A4` it assigns the `A4` property,
whose setter recomputes `freq` from the new reference; otherwise it assigns
the `freq` property, whose setter back-solves `A4 = freq / 2**((num-69)/12)`
and the `A4` setter then recomputes `freq` from it. -/
noncomputable def noteTuning (freq : ℝ) (stand_A4 : Bool) (note : PyNote) :
    PyNote :=
  if stand_A4 then
    { note with A4 := freq, freq := pitchFreq freq note.num }
  else
    let A4 := freq / (2 : ℝ) ^ (((note.num : ℝ) - (NUM_A4 : ℝ)) / 12)
    { note with A4 := A4, freq := pitchFreq A4 note.num }

/-- Total extractor for `Except`-wrapped notes (used to phrase theorems
without existential binders); the error branch returns a dummy note. -/
noncomputable def getNote (e : Except String PyNote) : PyNote :=
  match e with
  | .ok n => n
  | .error _ => { name := "", octave := 0, idx := 0, num := 0, A4 := 0, freq := 0 }

/-- Whether an `Except` computation succeeded. -/
def exOk {α : Type} (e : Except String α) : Bool :=
  match e with
  | .ok _ => true
  | .error _ => false

/-- The chord-name → interval table of the repository (`chords` in
chord.py; `Chord.__init__` in munotes/notes.py reads the same table under
the name `chord_names`). -/
def chords : List (String × List ℤ) :=
  [("", [0, 4, 7]),
   ("m", [0, 3, 7]),
   ("7", [0, 4, 7, 10]),
   ("m7", [0, 3, 7, 10]),
   ("M7", [0, 4, 7, 11]),
   ("mM7", [0, 3, 7, 11]),
   ("sus4", [0, 5, 7]),
   ("dim", [0, 3, 6]),
   ("dim7", [0, 3, 6, 9]),
   ("aug", [0, 4, 8]),
   ("6", [0, 4, 7, 9]),
   ("m6", [0, 3, 7, 9]),
   ("sus2", [0, 2, 7])]

/-- Dictionary lookup in the chord table. -/
def chordsLookup (type : String) : Option (List ℤ) :=
  chords.lookup type

/-- `chord_name_formatting(chord_name, type)` in the two-argument form whose
signature matches the call in `Chord.__init__` (munotes/_utils.py): format
the string, prefix-match `[A-G][#b]?` to find the root-name border, let an
explicit `type` argument win over the embedded suffix, and assert that the
resolved type is a registered chord name. -/
def chordNameFormatting (chordName : String) (type : Option String) :
    Except String (String × String) := do
  let formatted ← stringFormatting chordName
  match formatted.data with
  | [] => .error ("invalid string")
  | c :: rest =>
    if !(isNoteLetter c) then
      .error ("invalid string")
    else
      let border : ℕ :=
        match rest with
        | c2 :: _ => if c2 = '#' || c2 = 'b' then 2 else 1
        | [] => 1
      let rootName := String.mk (formatted.data.take border)
      let t :=
        match type with
        | some t => t
        | none => String.mk (formatted.data.drop border)
      match chordsLookup t with
      | some _ => .ok (rootName, t)
      | none => .error ("invalid chord type")

/-- One element of the list passed to `Notes.__init__`
(munotes/notes.py lines 579-588): an already-built note object
(contributing its `_notes` group), a note-name string, or a MIDI integer.
Strings and integers become `Note(note)` with the constructor defaults
(octave 4, A4 440). -/
inductive NotesMember where
  | group (notes : List PyNote)
  | name (s : String)
  | midi (n : ℤ)

/-- The notes contributed by one `Notes.__init__` list element. -/
noncomputable def memberNotes : NotesMember → Except String (List PyNote)
  | .group ns => .ok ns
  | .name s => (noteFromName s 4 440).map (fun n => [n])
  | .midi n => (noteFromNum n 440).map (fun n => [n])

/-- The flattening loop of `Notes.__init__`: concatenate every member's
contribution, propagating the first failure (which in Python aborts the
constructor before any attribute of the new object is assigned). -/
noncomputable def flattenMembers : List NotesMember → Except String (List PyNote)
  | [] => .ok []
  | m :: rest => do
    let ns ← memberNotes m
    let rest2 ← flattenMembers rest
    .ok (ns ++ rest2)

/-- Stable insertion of a note into a by-`num` sorted list, placing it after
all existing notes with a smaller-or-equal `num`. -/
noncomputable def insertByNum (n : PyNote) : List PyNote → List PyNote
  | [] => [n]
  | m :: rest => if m.num ≤ n.num then m :: insertByNum n rest else n :: m :: rest

/-- Python `sorted(notes_, key=lambda note: note.num)`: a stable ascending
sort by `num`, modelled as left-to-right stable insertion sort. -/
noncomputable def sortByNum (l : List PyNote) : List PyNote :=
  l.foldl (fun acc n => insertByNum n acc) []

/-- Re-tuning applied to each member note by the `A4` property setter
(munotes/notes.py lines 135-140): set `_A4` and recompute `_freq`. -/
noncomputable def refreshA4 (A4 : ℝ) (n : PyNote) : PyNote :=
  { n with A4 := A4, freq := pitchFreq A4 n.num }

/-- State of a munotes/notes.py `Notes` object after `__init__`: the member
list (flattened, sorted by `num`, then re-tuned by the final
`self.A4 = A4` assignment whose setter writes through to every member),
and the derived name/number lists computed from the sorted members. -/
structure NotesState where
  notes : List PyNote
  names : List String
  fullnames : List String
  nums : List ℤ
  duration : ℝ
  unit : String
  bpm : ℝ
  A4 : ℝ

/-- `Notes.__init__` (munotes/notes.py lines 579-597). -/
noncomputable def notesInit (ms : List NotesMember) (duration : ℝ)
    (unit : String) (bpm : ℝ) (A4 : ℝ) : Except String NotesState := do
  let flat ← flattenMembers ms
  let sorted := sortByNum flat
  .ok { notes := sorted.map (refreshA4 A4),
        names := sorted.map PyNote.name,
        fullnames := sorted.map (fun n => n.name ++ toString n.octave),
        nums := sorted.map PyNote.num,
        duration := duration, unit := unit, bpm := bpm, A4 := A4 }

/-- State of a munotes/notes.py `Chord` object. -/
structure ChordState where
  name : String
  type : String
  interval : List ℤ
  root : PyNote
  idxs : List ℤ
  notesState : NotesState

/-- `Chord.__init__` (munotes/notes.py lines 731-748): resolve the root name
and type, build the root note (`Note(root_name, octave)` with default
A4 440), look the interval up in the chord table, compute the component
pitch-class indices, and initialize the `Notes` base with the component
MIDI numbers `root.num + i`. -/
noncomputable def chordInit (chordName : String) (type : Option String)
    (octave : ℤ) (duration : ℝ) (unit : String) (bpm : ℝ) (A4 : ℝ) :
    Except String ChordState := do
  let (rootName, t) ← chordNameFormatting chordName type
  let root ← noteFromName rootName octave 440
  let interval ←
    match chordsLookup t with
    | some i => Except.ok i
    | none => Except.error ("KeyError")
  let idxs := interval.map (fun i => (root.idx + i) % 12)
  let ns ← notesInit (interval.map (fun i => NotesMember.midi (root.num + i)))
    duration unit bpm A4
  .ok { name := root.name ++ t, type := t, interval := interval,
        root := root, idxs := idxs, notesState := ns }

/-- Observable effect of `Notes.append` (munotes/notes.py lines 627-647) on
the receiver.  The body only rebinds the local name `self` to a freshly
constructed `Notes([self, *note], ..., A4=self.A4)` and discards it, so none
of the receiver's own attributes is reassigned; but the new object's member
list aliases the receiver's member notes (`notes_ += note._notes`), and the
constructor's final `self.A4 = A4` assignment runs the `A4` property setter,
which rewrites `_A4` and `_freq` of every aliased member with the
receiver's `A4`.  If flattening the arguments fails (for example an
out-of-range MIDI number), the constructor raises before that assignment
and the receiver's members are untouched. -/
noncomputable def notesAppend (ns : NotesState) (args : List NotesMember) :
    NotesState :=
  match flattenMembers args with
  | .error _ => ns
  | .ok _ => { ns with notes := ns.notes.map (refreshA4 ns.A4) }

/-- The tuning-coherence state that `Notes.__init__` establishes and every
`Notes`-level operation preserves: each member note carries the collection's
`A4` and the frequency derived from it. -/
def NotesSync (ns : NotesState) : Prop :=
  ∀ m ∈ ns.notes, m.A4 = ns.A4 ∧ m.freq = pitchFreq ns.A4 m.num

/-- The duration-to-seconds dispatch at the top of `Note.render`
(munotes/notes.py lines 229-236): seconds pass through, milliseconds are
divided by 1000, quarter lengths are `duration * 60 / bpm`, anything else
raises ValueError. -/
noncomputable def noteDurToSec (duration : ℝ) (unit : String) (bpm : ℝ) :
    Except String ℝ :=
  if unit = "s" then .ok duration
  else if unit = "ms" then .ok (duration / 1000)
  else if unit = "ql" then .ok (duration * 60 / bpm)
  else .error ("unit must be in [s, ms, ql]")

/-- `Track._to_sec` (munotes/sequence.py lines 156-163), embedded exactly as
written: note that the milliseconds branch MULTIPLIES by 1000.  The final
implicit `return None` of the Python function is the `none` case. -/
noncomputable def trackToSec (unit : String) (bpm : ℝ) (duration : ℝ) :
    Option ℝ :=
  if unit = "s" then some duration
  else if unit = "ms" then some (duration * 1000)
  else if unit = "ql" then some (duration * 60 / bpm)
  else none

/-- `int(sr * sec)` as used by `Note._return_time_axis` for the sample
count (nonnegative durations; Python `int` truncates toward zero). -/
noncomputable def numSamples (sr : ℕ) (sec : ℝ) : ℕ :=
  ⌊(sr : ℝ) * sec⌋.toNat

/-- The j-th point of `np.linspace(a, b, num)` (with endpoint):
`a + (b - a) * j / (num - 1)`.  For `num = 1` the divisor is 0 and real
division by zero yields `a`, matching numpy's single-point `[a]`. -/
noncomputable def linspaceVal (a b : ℝ) (num : ℕ) (j : ℕ) : ℝ :=
  a + (b - a) * j / ((num : ℝ) - 1)

/-- `np.linspace(a, b, num)` as a list. -/
noncomputable def linspaceList (a b : ℝ) (num : ℕ) : List ℝ :=
  (List.range num).map (linspaceVal a b num)

/-- Row `freq`, column `j` of the time axis built by
`Note._return_time_axis` (munotes/notes.py lines 157-170):
`np.linspace(0, 2*np.pi * sec * freq, int(sr*sec), axis=1)`. -/
noncomputable def timeAxisVal (freq sec : ℝ) (sr : ℕ) (j : ℕ) : ℝ :=
  linspaceVal 0 (2 * Real.pi * sec * freq) (numSamples sr sec) j

/-- The waveform-generation core of `Note.render` (munotes/notes.py lines
238-253) for a group of notes with frequencies `freqs`: apply the
elementwise sample function `w` to each note's time-axis row and sum across
the rows (`np.sum(..., axis=0)`).  Every supported waveform — `np.sin`,
`scipy.signal.square`, `scipy.signal.sawtooth`, and a user-supplied
callable — is an elementwise function of the time axis, so `w` ranges over
all of them. -/
noncomputable def renderBuffer (w : ℝ → ℝ) (freqs : List ℝ) (sec : ℝ)
    (sr : ℕ) : List ℝ :=
  (List.range (numSamples sr sec)).map
    (fun j => (freqs.map (fun f => w (timeAxisVal f sec sr j))).sum)

/-- `Note.render` (munotes/notes.py lines 226-254) for a note group:
convert the duration to seconds, then generate and sum the waveforms. -/
noncomputable def renderNotes (w : ℝ → ℝ) (freqs : List ℝ) (duration : ℝ)
    (unit : String) (bpm : ℝ) (sr : ℕ) : Except String (List ℝ) :=
  (noteDurToSec duration unit bpm).map (fun sec => renderBuffer w freqs sec sr)

/-- Length of a rendered buffer, 0 on a raised error. -/
def exLen (e : Except String (List ℝ)) : ℕ :=
  match e with
  | .ok l => l.length
  | .error _ => 0

/-- Sample `j` of a rendered buffer, 0 past the end or on a raised error. -/
noncomputable def exGetD (e : Except String (List ℝ)) (j : ℕ) : ℝ :=
  match e with
  | .ok l => l.getD j 0
  | .error _ => 0

/-- The per-event fade of `Track._gen_y` (munotes/sequence.py lines
149-152): when the (clamped) release is nonzero, multiply the last
`release` samples of the event's buffer by `np.linspace(1, 0, release)`.
The buffer's length is unchanged. -/
noncomputable def fadeTail (release : ℕ) (buf : List ℝ) : List ℝ :=
  if release = 0 then buf
  else
    buf.take (buf.length - release) ++
      List.zipWith (fun x g => x * g) (buf.drop (buf.length - release))
        (linspaceList 1 0 release)

/-- One iteration of the `Track._gen_y` loop, acting on the accumulated
buffer and the current (sticky) release value:
`release = min(len(y_note), release)`, fade the event's tail, and append
the whole event buffer with `np.append` (plain concatenation — there is no
overlap between consecutive events). -/
noncomputable def trackStep (acc : List ℝ × ℕ) (buf : List ℝ) : List ℝ × ℕ :=
  let r := min buf.length acc.2
  (acc.1 ++ fadeTail r buf, r)

/-- `Track._gen_y` (munotes/sequence.py lines 128-154) over the per-event
rendered buffers: fold the splice step over the events starting from the
empty buffer and the requested release length. -/
noncomputable def trackGenY (bufs : List (List ℝ)) (release : ℕ) : List ℝ :=
  (bufs.foldl trackStep ([], release)).1

/-- One iteration of the `Stream._gen_y` mixing loop (munotes/sequence.py
lines 278-285): zero-pad the shorter of the running mix and the next
track's buffer to the longer length, then add sample-wise (`y += y_track`).
Equal lengths take the `else` branch, appending zero padding of length 0. -/
noncomputable def streamStep (y yTrack : List ℝ) : List ℝ :=
  if yTrack.length > y.length then
    List.zipWith (· + ·) (y ++ List.replicate (yTrack.length - y.length) 0) yTrack
  else
    List.zipWith (· + ·) y (yTrack ++ List.replicate (y.length - yTrack.length) 0)

/-- `Stream._gen_y` over the per-track rendered buffers: fold the mixing
step starting from the empty buffer `np.array([])`. -/
noncomputable def streamGenY (yTracks : List (List ℝ)) : List ℝ :=
  yTracks.foldl streamStep []

/-- State of one note as read and written by `BaseNotes.tuning`
(munotes/_base.py): its MIDI number, A4 reference and frequency. -/
structure BNote where
  num : ℤ
  A4 : ℝ
  freq : ℝ

/-- The loop body of `BaseNotes.tuning` (munotes/_base.py lines 87-125),
processing the group's notes in order with the group size `nNotes` fixed.
With `stand_A4` each note's reference is set and its frequency recomputed;
without it, the guard `len(self._notes) > 1` raises ValueError on the FIRST
iteration — before any note has been modified — and otherwise the single
note's frequency is set directly and its reference back-solved.  The result
pairs the final (possibly partially updated) note list with the raised
error, if any. -/
noncomputable def tuningGo (stand : Bool) (nNotes : ℕ) (freq : ℝ) :
    List BNote → List BNote × Option String
  | [] => ([], none)
  | note :: rest =>
    if stand then
      let note2 : BNote := { note with A4 := freq, freq := pitchFreq freq note.num }
      let r := tuningGo stand nNotes freq rest
      (note2 :: r.1, r.2)
    else if 1 < nNotes then
      (note :: rest, some ("stand_A4=False is not supported when handling multiple notes."))
    else
      let A4 := freq / (2 : ℝ) ^ (((note.num : ℝ) - (NUM_A4 : ℝ)) / 12)
      let note2 : BNote := { note with freq := freq, A4 := A4 }
      let r := tuningGo stand nNotes freq rest
      (note2 :: r.1, r.2)

/-- `BaseNotes.tuning` on a group of notes: run the loop with
`nNotes = len(self._notes)`. -/
noncomputable def baseTuning (notes : List BNote) (freq : ℝ) (stand : Bool) :
    List BNote × Option String :=
  tuningGo stand notes.length freq notes

/-- C2: constructing a chord on root C with the empty (major) type symbol
yields component pitch classes 0, 4, 7, and with type symbol m7 yields
component pitch classes 0, 3, 7, 10; the component MIDI numbers are the
root's MIDI number (60 for C at the default octave 4) plus the interval
offsets, both in the `idxs` attribute and in the member notes themselves. -/
theorem chord_components_C_major_and_m7 :
    ((chordInit ("C") (some "") 4 1 ("s") 120 440).map
        (fun c => (c.idxs, c.root.num, c.notesState.nums,
          c.notesState.notes.map PyNote.idx))
      = .ok ([0, 4, 7], 60, [60 + 0, 60 + 4, 60 + 7], [0, 4, 7]))
    ∧ ((chordInit ("C") (some "m7") 4 1 ("s") 120 440).map
        (fun c => (c.idxs, c.root.num, c.notesState.nums,
          c.notesState.notes.map PyNote.idx))
      = .ok ([0, 3, 7, 10], 60, [60 + 0, 60 + 3, 60 + 7, 60 + 10], [0, 3, 7, 10])) :=
  ⟨rfl, rfl⟩

/-- C4: the quarter-length conversion agrees between `Note.render` and
`Track._to_sec` (2 quarter lengths at bpm 120 are exactly 1 second in
both), but the millisecond branch diverges: `Note.render` divides by 1000
as the claim states while `Track._to_sec` multiplies by 1000, so a 1 ms
duration becomes 1000 seconds in a track. -/
theorem duration_conversion_track_ms_bug :
    noteDurToSec 2 ("ql") 120 = .ok 1
    ∧ trackToSec ("ql") 120 2 = some 1
    ∧ noteDurToSec 1 ("ms") 120 = .ok (1 / 1000)
    ∧ trackToSec ("ms") 120 1 = some 1000
    ∧ (1000 : ℝ) ≠ 1 / 1000 := by
  refine ⟨?_, ?_, ?_, ?_, by norm_num⟩
  · rw [noteDurToSec, if_neg (by decide), if_neg (by decide), if_pos rfl]
    norm_num
  · rw [trackToSec, if_neg (by decide), if_neg (by decide), if_pos rfl]
    norm_num
  · rw [noteDurToSec, if_neg (by decide), if_pos rfl]
  · rw [trackToSec, if_neg (by decide), if_pos rfl]
    norm_num

/-- C5: `note_name_formatting` truncates the formatted string to the pitch
name BEFORE reading the trailing digits, so the octave digits of the input
are always dropped and the `octave` argument is used instead: parsing
`C5` with octave argument 7 yields octave 7 (the claim requires 5), and
`C#5` under the constructor's default octave 4 yields octave 4. -/
theorem note_name_trailing_digits_dropped :
    noteNameFormatting ("C5") 7 = .ok (("C"), 7)
    ∧ (noteFromName ("C5") 7 440).map (fun n => (n.name, n.octave, n.num))
        = .ok (("C"), 7, 96)
    ∧ (noteFromName ("C#5") 4 440).map PyNote.octave = .ok 4
    ∧ (noteFromName ("C") 4 440).map (fun n => (n.name, n.octave)) = .ok (("C"), 4) :=
  ⟨rfl, rfl, rfl, rfl⟩

/-- C8: `BaseNotes.tuning` with `stand_A4=False` raises on its first loop
iteration whenever the group holds more than one note, leaving every
note's A4 reference and frequency untouched, and succeeds for a
single-note group. -/
theorem tuning_absolute_frequency_multi_note (notes : List BNote) (freq : ℝ)
    (h : 1 < notes.length) :
    (baseTuning notes freq false).2.isSome = true
    ∧ (baseTuning notes freq false).1 = notes
    ∧ ∀ b : BNote, (baseTuning [b] freq false).2 = none := by
  obtain ⟨a, rest, rfl⟩ : ∃ a rest, notes = a :: rest := by
    cases notes with
    | nil => simp at h
    | cons a rest => exact ⟨a, rest, rfl⟩
  have h2 : 0 < rest.length := by
    simp only [List.length_cons] at h
    omega
  refine ⟨?_, ?_, fun b => ?_⟩
  · simp [baseTuning, tuningGo, h2]
  · simp [baseTuning, tuningGo, h2]
  · simp [baseTuning, tuningGo]

/-- Witness for C8 at a concrete two-note group. -/
theorem tuning_absolute_frequency_multi_note_witness :
    (1 < ([⟨69, 440, 440⟩, ⟨60, 440, 440⟩] : List BNote).length)
    ∧ ((baseTuning [⟨69, 440, 440⟩, ⟨60, 440, 440⟩] 432 false).2.isSome = true
       ∧ (baseTuning [⟨69, 440, 440⟩, ⟨60, 440, 440⟩] 432 false).1
           = [⟨69, 440, 440⟩, ⟨60, 440, 440⟩]
       ∧ ∀ b : BNote, (baseTuning [b] 432 false).2 = none) :=
  ⟨by decide, tuning_absolute_frequency_multi_note _ _ (by decide)⟩

/-- C1 (amended): constructing a note from MIDI number n in [0,127] yields
`num = n`, and transposing by any k yields `num = n + k` unconditionally —
the code performs no range check, no error and no clamping on the
transposed number. -/
theorem note_from_midi_num_and_transpose (n k : ℤ) (A4 : ℝ)
    (h0 : 0 ≤ n) (h1 : n ≤ 127) :
    exOk (noteFromNum n A4) = true
    ∧ (getNote (noteFromNum n A4)).num = n
    ∧ (transpose k (getNote (noteFromNum n A4))).num = n + k := by
  rw [noteFromNum, if_pos (⟨h0, h1⟩ : 0 ≤ n ∧ n ≤ 127)]
  exact ⟨rfl, rfl, rfl⟩

/-- Witness for C1 at n = 60, k = 7. -/
theorem note_from_midi_num_and_transpose_witness :
    ((0 : ℤ) ≤ 60 ∧ (60 : ℤ) ≤ 127)
    ∧ (exOk (noteFromNum 60 440) = true
       ∧ (getNote (noteFromNum 60 440)).num = 60
       ∧ (transpose 7 (getNote (noteFromNum 60 440))).num = 60 + 7) :=
  ⟨⟨by decide, by decide⟩,
   note_from_midi_num_and_transpose 60 7 440 (by decide) (by decide)⟩

/-- Counterexample to C1 as stated: transposing the note with MIDI number
127 by one semitone neither fails nor clamps; it silently produces the
out-of-range number 128. -/
theorem note_transpose_no_range_check :
    (noteFromNum 127 440).map (fun note => (transpose 1 note).num) = .ok 128
    ∧ ¬ ((128 : ℤ) ≤ 127) :=
  ⟨rfl, by decide⟩

/-- The structural invariants of a `Note` (spec section 3): the pitch-class
index lies in [0,11] and the MIDI number satisfies
`num = NUM_C0 + 12*octave + idx`. -/
def NoteInv (note : PyNote) : Prop :=
  0 ≤ note.idx ∧ note.idx < 12 ∧ note.num = NUM_C0 + 12 * note.octave + note.idx

/-- `_return_name_idx` of the j-th entry of `KEY_NAMES` is j, for every
pitch class j in [0,12). -/
theorem returnNameIdx_getD (j : ℤ) (h0 : 0 ≤ j) (h1 : j < 12) :
    returnNameIdx (KEY_NAMES.getD j.toNat ("")) = j := by
  interval_cases j <;> decide

/-- The result of `_return_name_idx` is always a pitch class in [0,12). -/
theorem returnNameIdx_range (name : String) :
    0 ≤ returnNameIdx name ∧ returnNameIdx name < 12 :=
  ⟨Int.emod_nonneg _ (by norm_num), Int.emod_lt_of_pos _ (by norm_num)⟩

/-- C9 (amended): construction from a name string, construction from a MIDI
number, `transpose`, and `tuning` all maintain the pitch-class range and
the `num = NUM_C0 + 12*octave + idx` linkage; the range `num ∈ [0,127]` is
additionally guaranteed for construction from a MIDI number (it is the only
operation that checks it). -/
theorem note_operations_maintain_invariants (s : String) (octArg n k : ℤ)
    (A4 freq : ℝ) (stand : Bool) (note : PyNote)
    (hname : exOk (noteFromName s octArg A4) = true)
    (hn0 : 0 ≤ n) (hn1 : n ≤ 127) (hinv : NoteInv note) :
    NoteInv (getNote (noteFromName s octArg A4))
    ∧ (NoteInv (getNote (noteFromNum n A4))
       ∧ 0 ≤ (getNote (noteFromNum n A4)).num
       ∧ (getNote (noteFromNum n A4)).num ≤ 127)
    ∧ NoteInv (transpose k note)
    ∧ ((noteTuning freq stand note).idx = note.idx
       ∧ (noteTuning freq stand note).num = note.num
       ∧ (noteTuning freq stand note).octave = note.octave
       ∧ NoteInv (noteTuning freq stand note)) := by
  obtain ⟨hi0, hi1, hlink⟩ := hinv
  refine ⟨?_, ?_, ?_, ?_⟩
  · cases hE : noteNameFormatting s octArg with
    | error e =>
      have hbad : noteFromName s octArg A4 = .error e := by
        rw [noteFromName, hE]
        rfl
      rw [hbad] at hname
      exact absurd hname (by simp [exOk])
    | ok p =>
      obtain ⟨nm, oct⟩ := p
      have hok : noteFromName s octArg A4
          = .ok { name := nm, octave := oct, idx := returnNameIdx nm,
                  num := NUM_C0 + 12 * oct + returnNameIdx nm,
                  A4 := A4,
                  freq := pitchFreq A4 (NUM_C0 + 12 * oct + returnNameIdx nm) } := by
        rw [noteFromName, hE]
        rfl
      rw [hok]
      exact ⟨(returnNameIdx_range nm).1, (returnNameIdx_range nm).2, rfl⟩
  · have hnumEq : noteFromNum n A4
        = .ok { name := KEY_NAMES.getD ((n - NUM_C0) % 12).toNat (""),
                octave := (n - NUM_C0) / 12,
                idx := returnNameIdx (KEY_NAMES.getD ((n - NUM_C0) % 12).toNat ("")),
                num := n,
                A4 := A4, freq := pitchFreq A4 n } := by
      rw [noteFromNum, if_pos (⟨hn0, hn1⟩ : 0 ≤ n ∧ n ≤ 127)]
    rw [hnumEq]
    have h0 : 0 ≤ (n - NUM_C0) % 12 := Int.emod_nonneg _ (by norm_num)
    have h1 : (n - NUM_C0) % 12 < 12 := Int.emod_lt_of_pos _ (by norm_num)
    have hidx := returnNameIdx_getD ((n - NUM_C0) % 12) h0 h1
    refine ⟨⟨?_, ?_, ?_⟩, hn0, hn1⟩
    · show 0 ≤ returnNameIdx (KEY_NAMES.getD ((n - NUM_C0) % 12).toNat (""))
      rw [hidx]
      exact h0
    · show returnNameIdx (KEY_NAMES.getD ((n - NUM_C0) % 12).toNat ("")) < 12
      rw [hidx]
      exact h1
    · show n = NUM_C0 + 12 * ((n - NUM_C0) / 12)
          + returnNameIdx (KEY_NAMES.getD ((n - NUM_C0) % 12).toNat (""))
      rw [hidx]
      simp only [NUM_C0]
      omega
  · refine ⟨Int.emod_nonneg _ (by norm_num), Int.emod_lt_of_pos _ (by norm_num), ?_⟩
    show note.num + k
        = NUM_C0 + 12 * ((note.num + k - NUM_C0) / 12) + (note.idx + k) % 12
    simp only [NUM_C0] at hlink ⊢
    omega
  · cases stand <;> simp [noteTuning, NoteInv, hi0, hi1, hlink]

/-- Witness for C9 at a concrete note and concrete operation arguments. -/
theorem note_operations_maintain_invariants_witness :
    (exOk (noteFromName ("C") 4 440) = true
     ∧ (0 : ℤ) ≤ 69 ∧ (69 : ℤ) ≤ 127
     ∧ NoteInv { name := ("C"), octave := 4, idx := 0, num := 60,
                 A4 := 440, freq := pitchFreq 440 60 })
    ∧ (NoteInv (getNote (noteFromName ("C") 4 440))
       ∧ (NoteInv (getNote (noteFromNum 69 440))
          ∧ 0 ≤ (getNote (noteFromNum 69 440)).num
          ∧ (getNote (noteFromNum 69 440)).num ≤ 127)
       ∧ NoteInv (transpose 5 { name := ("C"), octave := 4, idx := 0, num := 60,
                                A4 := 440, freq := pitchFreq 440 60 })
       ∧ ((noteTuning 450 true { name := ("C"), octave := 4, idx := 0, num := 60,
                                 A4 := 440, freq := pitchFreq 440 60 }).idx = 0
          ∧ (noteTuning 450 true { name := ("C"), octave := 4, idx := 0, num := 60,
                                   A4 := 440, freq := pitchFreq 440 60 }).num = 60
          ∧ (noteTuning 450 true { name := ("C"), octave := 4, idx := 0, num := 60,
                                   A4 := 440, freq := pitchFreq 440 60 }).octave = 4
          ∧ NoteInv (noteTuning 450 true { name := ("C"), octave := 4, idx := 0,
                                           num := 60, A4 := 440,
                                           freq := pitchFreq 440 60 }))) :=
  ⟨⟨rfl, by decide, by decide, by exact ⟨by decide, by decide, by decide⟩⟩,
   note_operations_maintain_invariants ("C") 4 69 5 440 450 true _ rfl
     (by decide) (by decide) ⟨by decide, by decide, by decide⟩⟩

/-- Counterexample to C9 as stated: construction from a name string never
checks the MIDI range, so `Note("C", octave=10)` yields `num = 132`,
outside [0,127]. -/
theorem note_from_name_num_out_of_range :
    (noteFromName ("C") 10 440).map PyNote.num = .ok 132
    ∧ ¬ ((132 : ℤ) ≤ 127) :=
  ⟨rfl, by decide⟩

/-- C10 (amended): `Notes.append` never reassigns the receiver's own
attributes, so `names`, `nums` and the length of the member list are
unchanged for every receiver and every argument list; and whenever the
receiver's members carry the receiver's `A4` (the state `Notes.__init__`
establishes), the member list itself is also unchanged, because the
constructor's write-through `self.A4 = A4` rewrites each member with the
values it already holds. -/
theorem notes_append_receiver_unchanged (ns : NotesState)
    (args : List NotesMember) :
    (notesAppend ns args).names = ns.names
    ∧ (notesAppend ns args).nums = ns.nums
    ∧ (notesAppend ns args).notes.length = ns.notes.length
    ∧ (NotesSync ns → (notesAppend ns args).notes = ns.notes) := by
  cases hF : flattenMembers args with
  | error e =>
    rw [notesAppend, hF]
    exact ⟨rfl, rfl, rfl, fun _ => rfl⟩
  | ok flat =>
    rw [notesAppend, hF]
    refine ⟨rfl, rfl, ?_, fun h => ?_⟩
    · show (ns.notes.map (refreshA4 ns.A4)).length = ns.notes.length
      rw [List.length_map]
    · show ns.notes.map (refreshA4 ns.A4) = ns.notes
      have hid : ∀ m ∈ ns.notes, refreshA4 ns.A4 m = m := by
        intro m hm
        obtain ⟨h1, h2⟩ := h m hm
        show { m with A4 := ns.A4, freq := pitchFreq ns.A4 m.num } = m
        rw [← h2, ← h1]
      calc ns.notes.map (refreshA4 ns.A4) = ns.notes.map id := List.map_congr_left hid
      _ = ns.notes := List.map_id ns.notes

/-- A one-member `Notes` state whose member carries the collection's A4, as
`Notes.__init__` leaves it. -/
noncomputable def syncedNotes : NotesState :=
  { notes := [{ name := ("A"), octave := 4, idx := 9, num := 69,
                A4 := 440, freq := pitchFreq 440 69 }],
    names := [("A")], fullnames := [("A4")], nums := [69],
    duration := 1, unit := ("s"), bpm := 120, A4 := 440 }

/-- Witness for C10 on the synced one-member state with no arguments,
discharging the inner `NotesSync` implication there. -/
theorem notes_append_receiver_unchanged_witness :
    NotesSync syncedNotes
    ∧ ((notesAppend syncedNotes []).names = syncedNotes.names
       ∧ (notesAppend syncedNotes []).nums = syncedNotes.nums
       ∧ (notesAppend syncedNotes []).notes.length = syncedNotes.notes.length
       ∧ (notesAppend syncedNotes []).notes = syncedNotes.notes) := by
  have hsync : NotesSync syncedNotes := by
    intro m hm
    simp only [syncedNotes, List.mem_singleton] at hm
    subst hm
    exact ⟨rfl, rfl⟩
  obtain ⟨h1, h2, h3, h4⟩ := notes_append_receiver_unchanged syncedNotes []
  exact ⟨hsync, h1, h2, h3, h4 hsync⟩

/-- A one-member `Notes` state whose member was later re-tuned directly
(`ns.notes[0].A4 = 430` runs the member's own A4 setter and leaves the
collection's A4 at 440), which the class setters permit. -/
noncomputable def divergedNotes : NotesState :=
  { notes := [{ name := ("A"), octave := 4, idx := 9, num := 69,
                A4 := 430, freq := pitchFreq 430 69 }],
    names := [("A")], fullnames := [("A4")], nums := [69],
    duration := 1, unit := ("s"), bpm := 120, A4 := 440 }

/-- Counterexample to C10 as stated: on a receiver holding an individually
re-tuned member, `append` changes the member's observable state — the
constructor call inside `append` rewrites the member's A4 from 430 back to
the collection's 440 — so `ns.notes` is not identical before and after. -/
theorem notes_append_retunes_diverged_member :
    (notesAppend divergedNotes []).notes ≠ divergedNotes.notes := by
  intro hEq
  have hx := congrArg (fun l => (l.map PyNote.A4).getD 0 0) hEq
  simp only [notesAppend, flattenMembers, divergedNotes, refreshA4, List.map_cons,
    List.map_nil, List.getD_cons_zero] at hx
  norm_num at hx

/-- Indexing a mapped range with default: the j-th sample of a buffer built
as `map g (range n)` is `g j` inside the buffer and the default 0 outside. -/
theorem getD_map_range (g : ℕ → ℝ) (n j : ℕ) :
    ((List.range n).map g).getD j 0 = if j < n then g j else 0 := by
  rcases lt_or_ge j n with h | h
  · rw [List.getD_eq_getElem?_getD, List.getElem?_map, List.getElem?_range h]
    simp [h]
  · rw [List.getD_eq_default _ _ (by simpa using h)]
    rw [if_neg (Nat.not_lt.2 h)]

/-- C3: when the shared duration conversion succeeds, rendering a note
group yields a buffer of `int(sr*sec)` samples, each individual member
rendered with the same parameters yields a buffer of the same length, and
every sample of the group buffer is the sum over the members of the
corresponding sample of their individual buffers. -/
theorem render_is_sum_of_member_renders (w : ℝ → ℝ) (freqs : List ℝ)
    (duration : ℝ) (unit : String) (bpm : ℝ) (sr : ℕ) (sec : ℝ)
    (h : noteDurToSec duration unit bpm = .ok sec) :
    renderNotes w freqs duration unit bpm sr = .ok (renderBuffer w freqs sec sr)
    ∧ exLen (renderNotes w freqs duration unit bpm sr) = numSamples sr sec
    ∧ (∀ f : ℝ, exLen (renderNotes w [f] duration unit bpm sr) = numSamples sr sec)
    ∧ ∀ j : ℕ, exGetD (renderNotes w freqs duration unit bpm sr) j
        = (freqs.map (fun f => exGetD (renderNotes w [f] duration unit bpm sr) j)).sum := by
  have hr : ∀ fs : List ℝ,
      renderNotes w fs duration unit bpm sr = .ok (renderBuffer w fs sec sr) := by
    intro fs
    rw [renderNotes, h]
    rfl
  refine ⟨hr freqs, ?_, fun f => ?_, fun j => ?_⟩
  · rw [hr]
    simp [exLen, renderBuffer]
  · rw [hr]
    simp [exLen, renderBuffer]
  · rw [hr freqs]
    have hone : (fun f : ℝ => exGetD (renderNotes w [f] duration unit bpm sr) j)
        = fun f : ℝ => if j < numSamples sr sec then w (timeAxisVal f sec sr j) else 0 := by
      funext f
      rw [hr [f]]
      show (renderBuffer w [f] sec sr).getD j 0 = _
      rw [renderBuffer, getD_map_range]
      rcases lt_or_ge j (numSamples sr sec) with hj | hj
      · rw [if_pos hj, if_pos hj]
        simp
      · rw [if_neg (Nat.not_lt.2 hj), if_neg (Nat.not_lt.2 hj)]
    show (renderBuffer w freqs sec sr).getD j 0 = _
    rw [renderBuffer, getD_map_range, hone]
    rcases lt_or_ge j (numSamples sr sec) with hj | hj
    · rw [if_pos hj]
      rw [List.map_congr_left
        (fun (f : ℝ) _ => (if_pos hj : (if j < numSamples sr sec
          then w (timeAxisVal f sec sr j) else 0) = w (timeAxisVal f sec sr j)))]
    · rw [if_neg (Nat.not_lt.2 hj)]
      rw [List.map_congr_left
        (fun (f : ℝ) _ => (if_neg (Nat.not_lt.2 hj) : (if j < numSamples sr sec
          then w (timeAxisVal f sec sr j) else 0) = (0 : ℝ)))]
      exact (List.sum_eq_zero (by simp)).symm

/-- Witness for C3: one note at 440 Hz, identity waveform callable, one
second at sample rate 22050. -/
theorem render_is_sum_of_member_renders_witness :
    noteDurToSec 1 ("s") 120 = .ok 1
    ∧ (renderNotes (fun t => t) [440] 1 ("s") 120 22050
         = .ok (renderBuffer (fun t => t) [440] 1 22050)
       ∧ exLen (renderNotes (fun t => t) [440] 1 ("s") 120 22050) = numSamples 22050 1
       ∧ (∀ f : ℝ, exLen (renderNotes (fun t => t) [f] 1 ("s") 120 22050)
           = numSamples 22050 1)
       ∧ ∀ j : ℕ, exGetD (renderNotes (fun t => t) [440] 1 ("s") 120 22050) j
           = (([(440 : ℝ)]).map
               (fun f => exGetD (renderNotes (fun t => t) [f] 1 ("s") 120 22050) j)).sum) :=
  ⟨rfl, render_is_sum_of_member_renders (fun t => t) [440] 1 ("s") 120 22050 1 rfl⟩

/-- The in-place fade applied to an event's tail does not change the
buffer's length (for the clamped release the loop uses). -/
theorem fadeTail_length (r : ℕ) (buf : List ℝ) (h : r ≤ buf.length) :
    (fadeTail r buf).length = buf.length := by
  rw [fadeTail]
  rcases Nat.eq_zero_or_pos r with h0 | h0
  · rw [if_pos h0]
  · rw [if_neg (Nat.pos_iff_ne_zero.1 h0)]
    simp only [List.length_append, List.length_take, List.length_zipWith,
      List.length_drop, linspaceList, List.length_map, List.length_range]
    omega

/-- Invariant of the `Track._gen_y` loop: starting from any accumulated
buffer and release value, folding the splice step appends exactly the
events' own lengths. -/
theorem trackFold_length (bufs : List (List ℝ)) :
    ∀ (y : List ℝ) (r : ℕ),
      ((bufs.foldl trackStep (y, r)).1).length
        = y.length + (bufs.map List.length).sum := by
  induction bufs with
  | nil =>
    intro y r
    simp
  | cons b rest ih =>
    intro y r
    rw [List.foldl_cons]
    show ((rest.foldl trackStep
      (y ++ fadeTail (min b.length r) b, min b.length r)).1).length = _
    rw [ih]
    simp only [List.length_append, fadeTail_length _ _ (Nat.min_le_left _ _),
      List.map_cons, List.sum_cons]
    omega

/-- C6 (amended): `Track._gen_y` concatenates the events' buffers — the
release window only fades each event's tail in place — so the rendered
track's length is exactly the sum of the events' own buffer lengths, with
no `(n-1) × release` subtraction and no overlap between events. -/
theorem track_render_length_is_sum (bufs : List (List ℝ)) (release : ℕ) :
    (trackGenY bufs release).length = (bufs.map List.length).sum := by
  rw [trackGenY, trackFold_length]
  simp

/-- Counterexample to C6 as stated: two 10-sample events spliced with
release 3 yield 20 samples, not the 10 + 10 - (2-1)*3 = 17 samples the
overlap-add description predicts. -/
theorem track_render_length_no_overlap_subtraction :
    (trackGenY [List.replicate 10 (1 : ℝ), List.replicate 10 (1 : ℝ)] 3).length = 20
    ∧ (20 : ℕ) ≠ 10 + 10 - (2 - 1) * 3 := by
  constructor
  · rw [trackGenY, trackFold_length]
    simp
  · decide

/-- Sample-wise reading of `zipWith` addition on equal-length buffers,
with the shared default 0. -/
theorem getD_zipWith_add (a : List ℝ) :
    ∀ (b : List ℝ) (j : ℕ), a.length = b.length →
      (List.zipWith (· + ·) a b).getD j 0 = a.getD j 0 + b.getD j 0 := by
  induction a with
  | nil =>
    intro b j h
    cases b with
    | nil => simp
    | cons y ys => simp at h
  | cons x xs ih =>
    intro b j h
    cases b with
    | nil => simp at h
    | cons y ys =>
      cases j with
      | zero => simp
      | succ j =>
        simp only [List.zipWith_cons_cons, List.getD_cons_succ]
        exact ih ys j (by simpa using h)

/-- Every sample of an all-zero buffer reads as 0. -/
theorem getD_replicate_zero (k j : ℕ) :
    (List.replicate k (0 : ℝ)).getD j 0 = 0 := by
  induction k generalizing j with
  | zero => simp
  | succ k ih =>
    cases j with
    | zero => simp
    | succ j =>
      rw [List.replicate_succ, List.getD_cons_succ]
      exact ih j

/-- Zero-padding on the right never changes what a sample reads as, since
the default is also 0. -/
theorem getD_append_replicate_zero (y : List ℝ) (k : ℕ) :
    ∀ j : ℕ, (y ++ List.replicate k (0 : ℝ)).getD j 0 = y.getD j 0 := by
  induction y with
  | nil =>
    intro j
    rw [List.nil_append]
    exact getD_replicate_zero k j
  | cons x xs ih =>
    intro j
    cases j with
    | zero => simp
    | succ j =>
      rw [List.cons_append, List.getD_cons_succ, List.getD_cons_succ]
      exact ih j

/-- C7: mixing two track buffers of 1000 and 1500 samples produces a
1500-sample buffer whose first 1000 samples are the sample-wise sum of the
two tracks and whose remaining 500 samples equal the longer track alone. -/
theorem stream_mixes_two_tracks (t1 t2 : List ℝ)
    (h1 : t1.length = 1000) (h2 : t2.length = 1500) :
    (streamGenY [t1, t2]).length = 1500
    ∧ (∀ j : ℕ, j < 1000 →
        (streamGenY [t1, t2]).getD j 0 = t1.getD j 0 + t2.getD j 0)
    ∧ (∀ j : ℕ, 1000 ≤ j → j < 1500 →
        (streamGenY [t1, t2]).getD j 0 = t2.getD j 0) := by
  have e0 : streamGenY [t1, t2] = streamStep (streamStep [] t1) t2 := rfl
  have e1 : streamStep [] t1
      = List.zipWith (· + ·) (List.replicate 1000 (0 : ℝ)) t1 := by
    rw [streamStep, if_pos (by simp [h1])]
    rw [List.nil_append]
    simp [h1]
  have hA_len : (List.zipWith (· + ·) (List.replicate 1000 (0 : ℝ)) t1).length
      = 1000 := by
    simp [h1]
  have e2 : streamGenY [t1, t2]
      = List.zipWith (· + ·)
          ((List.zipWith (· + ·) (List.replicate 1000 (0 : ℝ)) t1)
            ++ List.replicate 500 (0 : ℝ)) t2 := by
    rw [e0, e1, streamStep, if_pos (by rw [hA_len, h2]; norm_num)]
    rw [hA_len, h2]
  have hlen : (streamGenY [t1, t2]).length = 1500 := by
    rw [e2]
    simp [hA_len, h1, h2]
  have hsample : ∀ j : ℕ,
      (streamGenY [t1, t2]).getD j 0 = t1.getD j 0 + t2.getD j 0 := by
    intro j
    rw [e2, getD_zipWith_add _ _ _ (by simp [hA_len, h1, h2]),
      getD_append_replicate_zero,
      getD_zipWith_add _ _ _ (by simp [h1]), getD_replicate_zero, zero_add]
  refine ⟨hlen, fun j _ => hsample j, fun j hj _ => ?_⟩
  rw [hsample j, List.getD_eq_default _ _ (by rw [h1]; exact hj), zero_add]

/-- Witness for C7 on concrete 1000- and 1500-sample buffers. -/
theorem stream_mixes_two_tracks_witness :
    ((List.replicate 1000 (1 : ℝ)).length = 1000
     ∧ (List.replicate 1500 (2 : ℝ)).length = 1500)
    ∧ ((streamGenY [List.replicate 1000 (1 : ℝ), List.replicate 1500 (2 : ℝ)]).length = 1500
       ∧ (∀ j : ℕ, j < 1000 →
           (streamGenY [List.replicate 1000 (1 : ℝ), List.replicate 1500 (2 : ℝ)]).getD j 0
             = (List.replicate 1000 (1 : ℝ)).getD j 0
               + (List.replicate 1500 (2 : ℝ)).getD j 0)
       ∧ (∀ j : ℕ, 1000 ≤ j → j < 1500 →
           (streamGenY [List.replicate 1000 (1 : ℝ), List.replicate 1500 (2 : ℝ)]).getD j 0
             = (List.replicate 1500 (2 : ℝ)).getD j 0)) :=
  ⟨⟨by simp, by simp⟩,
   stream_mixes_two_tracks _ _ (by simp) (by simp)⟩
